import Mathlib

/-!
Verification of the Starknet keystore layer
(`core/services/keystore/starknet.go`): the key lifecycle manager
(`starknet`), the signature codec, the `keystoreAdapter` and the
`StarknetLooppSigner`, embedded shallowly in Lean.

External collaborators that live outside the source file (the
`keyManager`, the `starkkey` package and the signature codec of the
`adapters` package) are modelled from the specification; every
definition modelled that way says so in its doc comment.
-/

namespace StarknetKeystore

/-- Byte buffers: lists of byte values (each `< 256` when produced by
the encoder). -/
abbrev Bytes := List Nat

/-- The fixed byte width of one field element (felt) of the Starknet
curve, as used by the signature codec. -/
def feltLength : Nat := 32

/-- `big.Int.SetBytes`: interpret a buffer as a big-endian unsigned
integer. -/
def bytesToNat (bs : Bytes) : Nat := bs.foldl (fun acc b => acc * 256 + b) 0

/-- Big-endian encoding of `v` into exactly `n` bytes (the low `8*n`
bits of `v`). -/
def natToBytesBE : Nat → Nat → Bytes
  | 0, _ => []
  | n + 1, v => natToBytesBE n (v / 256) ++ [v % 256]

/-- Fuel-driven byte length of the minimal big-endian representation of
a natural number (`0` for `0`). -/
def minByteLenAux : Nat → Nat → Nat
  | 0, _ => 0
  | fuel + 1, v => if v = 0 then 0 else minByteLenAux fuel (v / 256) + 1

/-- `big.Int.Bytes`: the minimal big-endian representation (empty for
`0`). -/
def natBytesMin (v : Nat) : Bytes := natToBytesBE (minByteLenAux v v) v

/-- `starkkey.Key`: identifier (derived from the public key) and
private scalar.  Modelled from the spec: the `starkkey` package is not
under `src/`; the spec says a key is an identifier, a private scalar
and a public point, with equality by identifier, so we keep the
identifier and the scalar. -/
structure Key where
  id : String
  privKey : Nat
  deriving DecidableEq, Repr

/-- `Key.ID()`. -/
def Key.ID (k : Key) : String := k.id

/-- `Key.ToPrivKey()`. -/
def Key.ToPrivKey (k : Key) : Nat := k.privKey

/-- The Go `error` values this layer produces.  `wrap ctx e` models
`fmt.Errorf("ctx: %w", e)` / `errors.Wrap(e, ctx)`; `other` models an
opaque error coming from a collaborator. -/
inductive Err where
  | locked
  | notFound (id : String) (keyType : String)
  | alreadyExists (id : String)
  | malformedSignature (msg : String)
  | encodingError (msg : String)
  | other (msg : String)
  | wrap (context : String) (inner : Err)
  deriving DecidableEq, Repr

/-- A signature of the `adapters` package: the two felt components. -/
structure Signature where
  x : Nat
  y : Nat
  deriving DecidableEq, Repr

/-- Modelled from the spec: `adapters.SignatureFromBigInts` (the
codec's encode entry, not under `src/`).  "encode(r, s) fails if either
integer does not fit in the fixed field width (out-of-range scalar),
surfaced as an EncodingError, never silently truncated". -/
def SignatureFromBigInts (x y : Nat) : Except Err Signature :=
  if x < 256 ^ feltLength ∧ y < 256 ^ feltLength then .ok ⟨x, y⟩
  else .error (.encodingError "signature component exceeds field width")

/-- Modelled from the spec: the codec's byte serialization — each
component in the fixed field width, concatenated into one flat
buffer. -/
def Signature.bytes (s : Signature) : Bytes :=
  natToBytesBE feltLength s.x ++ natToBytesBE feltLength s.y

/-- Modelled from the spec: `adapters.SignatureFromBytes` (the codec's
decode entry, not under `src/`).  "decode(bytes) fails with
MalformedSignature if the buffer length does not match the expected
fixed width for a two-component signature". -/
def SignatureFromBytes (b : Bytes) : Except Err Signature :=
  if b.length = 2 * feltLength then
    .ok ⟨bytesToNat (b.take feltLength), bytesToNat (b.drop feltLength)⟩
  else .error (.malformedSignature "invalid signature length")

/-- Modelled from the spec: `Signature.Ints()`, the conversion of a
parsed signature back to the two big integers. -/
def Signature.Ints (s : Signature) : Except Err (Nat × Nat) := .ok (s.x, s.y)

/-- `keystoreAdapter.Decode` (starknet.go:191-197): parse the raw
signature, wrapping a parse error with context, then convert to
integers. -/
def keystoreAdapter.Decode (rawSignature : Bytes) : Except Err (Nat × Nat) :=
  match SignatureFromBytes rawSignature with
  | .error serr =>
      .error (.wrap "error creating starknet signature from raw signature" serr)
  | .ok starknetSig => starknetSig.Ints

/-- `keystoreAdapter.Sign` (starknet.go:183-189): call the wrapped
loopp keystore with the digest's bytes, wrap its error with context,
and on success decode the raw signature. -/
def keystoreAdapter.Sign (looppSign : String → Bytes → Except Err Bytes)
    (senderAddress : String) (hash : Nat) : Except Err (Nat × Nat) :=
  match looppSign senderAddress (natBytesMin hash) with
  | .error e => .error (.wrap "error computing loopp keystore signature" e)
  | .ok raw => keystoreAdapter.Decode raw

theorem natToBytesBE_length (n v : Nat) : (natToBytesBE n v).length = n := by
  induction n generalizing v with
  | zero => rfl
  | succ n ih => simp [natToBytesBE, ih]

theorem bytesToNat_append_singleton (xs : Bytes) (b : Nat) :
    bytesToNat (xs ++ [b]) = bytesToNat xs * 256 + b := by
  simp [bytesToNat, List.foldl_append]

theorem bytesToNat_natToBytesBE (n v : Nat) :
    bytesToNat (natToBytesBE n v) = v % 256 ^ n := by
  induction n generalizing v with
  | zero => simp [natToBytesBE, bytesToNat, Nat.mod_one]
  | succ n ih =>
      rw [natToBytesBE, bytesToNat_append_singleton, ih]
      have h : v % (256 * 256 ^ n) = v % 256 + 256 * (v / 256 % 256 ^ n) :=
        Nat.mod_mul
      have hpow : (256 : Nat) ^ (n + 1) = 256 * 256 ^ n := by ring
      rw [hpow, h]
      ring

theorem bytesToNat_natToBytesBE_of_lt {n v : Nat} (h : v < 256 ^ n) :
    bytesToNat (natToBytesBE n v) = v := by
  rw [bytesToNat_natToBytesBE, Nat.mod_eq_of_lt h]

/-- C1: for every signature pair `(r, s)` within the field width,
decoding (via `keystoreAdapter.Decode`, the decode step) the byte
buffer produced by encoding `(r, s)` (via `SignatureFromBigInts` and
`Signature.bytes`, the encode step of `StarknetLooppSigner.Sign`)
yields exactly the original pair. -/
theorem signature_encode_decode_roundtrip (r s : Nat)
    (hr : r < 256 ^ feltLength) (hs : s < 256 ^ feltLength) :
    (SignatureFromBigInts r s).bind
      (fun sig => keystoreAdapter.Decode sig.bytes) = .ok (r, s) := by
  have hrlen : (natToBytesBE feltLength r).length = feltLength :=
    natToBytesBE_length _ _
  have hslen : (natToBytesBE feltLength s).length = feltLength :=
    natToBytesBE_length _ _
  have hlen : (Signature.bytes ⟨r, s⟩).length = 2 * feltLength := by
    simp [Signature.bytes, hrlen, hslen]; omega
  have htake : (Signature.bytes ⟨r, s⟩).take feltLength = natToBytesBE feltLength r := by
    rw [Signature.bytes, List.take_left' hrlen]
  have hdrop : (Signature.bytes ⟨r, s⟩).drop feltLength = natToBytesBE feltLength s := by
    rw [Signature.bytes, List.drop_left' hrlen]
  have h1 : SignatureFromBigInts r s = .ok ⟨r, s⟩ := by
    rw [SignatureFromBigInts, if_pos ⟨hr, hs⟩]
  have h2 : keystoreAdapter.Decode (Signature.bytes ⟨r, s⟩) = .ok (r, s) := by
    rw [keystoreAdapter.Decode, SignatureFromBytes, if_pos hlen, htake, hdrop,
      bytesToNat_natToBytesBE_of_lt hr, bytesToNat_natToBytesBE_of_lt hs]
    rfl
  simp only [h1, Except.bind, h2]

/-- Witness for C1 at the concrete pair `(3, 7)`. -/
theorem signature_encode_decode_roundtrip_witness :
    3 < 256 ^ feltLength ∧ 7 < 256 ^ feltLength ∧
      (SignatureFromBigInts 3 7).bind
        (fun sig => keystoreAdapter.Decode sig.bytes) = .ok (3, 7) :=
  ⟨by decide, by decide,
    signature_encode_decode_roundtrip 3 7 (by decide) (by decide)⟩

/-- The StarkNet portion of the key ring: the in-memory mapping from
key identifier to key (`keyRing.StarkNet`), as an association list. -/
abbrev Ring := List (String × Key)

/-- The state of the shared `keyManager` seen by the `starknet` store:
the locked flag (`isLocked()`) and the StarkNet key ring.  Modelled
from the spec: the `keyManager` is not under `src/`; the spec says it
supplies `isLocked()` and the `keyRing` mapping. -/
structure KMState where
  locked : Bool
  ring : Ring
  deriving DecidableEq, Repr

/-- Modelled from the spec: `keyManager.safeAddKey` (not under `src/`),
"ring mutation plus any persistence side effect" — the map assignment
`keyRing.StarkNet[key.ID()] = key`; persistence is out of scope per the
spec's §1. -/
def safeAddKey (k : Key) (r : Ring) : Ring :=
  (k.ID, k) :: r.filter (fun p => p.1 ≠ k.ID)

/-- Modelled from the spec: `keyManager.safeRemoveKey` (not under
`src/`), the removal of `key.ID()` from the ring mapping. -/
def safeRemoveKey (k : Key) (r : Ring) : Ring :=
  r.filter (fun p => p.1 ≠ k.ID)

/-- `starknet.getByID` (starknet.go:149-155): ring lookup, with a
`KeyNotFoundError` when absent. -/
def getByID (r : Ring) (id : String) : Except Err Key :=
  match r.lookup id with
  | some key => .ok key
  | none => .error (.notFound id "StarkNet")

/-- `starknet.Get` (starknet.go:40-47).  All operations return the
resulting `Except` together with the key-manager state after the call
(the Go methods mutate the shared ring in place). -/
def starknet.Get (st : KMState) (id : String) : Except Err Key × KMState :=
  if st.locked then (.error .locked, st)
  else (getByID st.ring id, st)

/-- `starknet.GetAll` (starknet.go:49-59): a snapshot copy of the ring
values. -/
def starknet.GetAll (st : KMState) : Except Err (List Key) × KMState :=
  if st.locked then (.error .locked, st)
  else (.ok (st.ring.map Prod.snd), st)

/-- `starknet.Create` (starknet.go:61-72).  `gen` is the outcome of the
collaborator call `starkkey.New()` (fresh-key generation, not under
`src/`). -/
def starknet.Create (gen : Except Err Key) (st : KMState) :
    Except Err Key × KMState :=
  if st.locked then (.error .locked, st)
  else match gen with
    | .error e => (.error e, st)
    | .ok key => (.ok key, { st with ring := safeAddKey key st.ring })

/-- `starknet.Add` (starknet.go:74-84). -/
def starknet.Add (st : KMState) (key : Key) : Except Err Unit × KMState :=
  if st.locked then (.error .locked, st)
  else if (st.ring.lookup key.ID).isSome then
    (.error (.alreadyExists key.ID), st)
  else (.ok (), { st with ring := safeAddKey key st.ring })

/-- `starknet.Delete` (starknet.go:86-98). -/
def starknet.Delete (st : KMState) (id : String) : Except Err Key × KMState :=
  if st.locked then (.error .locked, st)
  else match getByID st.ring id with
    | .error e => (.error e, st)
    | .ok key => (.ok key, { st with ring := safeRemoveKey key st.ring })

/-- `starknet.Import` (starknet.go:100-114).  `dec` is the outcome of
the collaborator call `starkkey.FromEncryptedJSON(keyJSON, password)`
(decryption, not under `src/`). -/
def starknet.Import (dec : Except Err Key) (st : KMState) :
    Except Err Key × KMState :=
  if st.locked then (.error .locked, st)
  else match dec with
    | .error e =>
        (.error (.wrap "StarkNetKeyStore#ImportKey failed to decrypt key" e), st)
    | .ok key =>
        if (st.ring.lookup key.ID).isSome then
          (.error (.alreadyExists key.ID), st)
        else (.ok key, { st with ring := safeAddKey key st.ring })

/-- `starknet.Export` (starknet.go:116-127).  `enc` is the collaborator
call `starkkey.ToEncryptedJSON(key, password, scryptParams)`
(encryption, not under `src/`). -/
def starknet.Export (enc : Key → String → Except Err Bytes) (st : KMState)
    (id : String) (password : String) : Except Err Bytes × KMState :=
  if st.locked then (.error .locked, st)
  else match getByID st.ring id with
    | .error e => (.error e, st)
    | .ok key =>
        match enc key password with
        | .error e => (.error e, st)
        | .ok blob => (.ok blob, st)

/-- `starknet.EnsureKey` (starknet.go:129-147).  `gen` is the outcome
of `starkkey.New()`. -/
def starknet.EnsureKey (gen : Except Err Key) (st : KMState) :
    Except Err Unit × KMState :=
  if st.locked then (.error .locked, st)
  else if st.ring.length > 0 then (.ok (), st)
  else match gen with
    | .error e => (.error e, st)
    | .ok key => (.ok (), { st with ring := safeAddKey key st.ring })

/-- `StarknetLooppSigner.Sign` (starknet.go:218-240).  `curveSign` is
the collaborator `caigo.Curve.Sign(starkHash, privKey)`; the second
component of the result records every invocation of the curve signing
primitive with its arguments (digest, private scalar).  A `none` hash
models a nil Go slice, `some h` a non-nil slice with contents `h`. -/
def StarknetLooppSigner.Sign (curveSign : Nat → Nat → Except Err (Nat × Nat))
    (st : KMState) (id : String) (hash : Option Bytes) :
    Except Err (Option Bytes) × List (Nat × Nat) :=
  match (starknet.Get st id).1 with
  | .error e => (.error e, [])
  | .ok k =>
      match hash with
      | none => (.ok none, [])
      | some h =>
          let starkHash := bytesToNat h
          match curveSign starkHash k.ToPrivKey with
          | .error e =>
              (.error (.wrap "error signing data with curve" e),
                [(starkHash, k.ToPrivKey)])
          | .ok (x, y) =>
              match SignatureFromBigInts x y with
              | .error e => (.error e, [(starkHash, k.ToPrivKey)])
              | .ok sig => (.ok (some sig.bytes), [(starkHash, k.ToPrivKey)])

/-- `StarknetLooppSigner.Accounts` (starknet.go:243-245): an explicit
`unimplemented` stub. -/
def StarknetLooppSigner.Accounts : Except Err (List String) :=
  .error (.other "unimplemented")

/-- The spec's data-model invariant on the ring: every entry is stored
under its key's identifier. -/
def RingWF (r : Ring) : Prop := ∀ p ∈ r, p.1 = p.2.ID

theorem lookup_cons (a : String) (p : String × Key) (t : Ring) :
    (p :: t).lookup a = if a = p.1 then some p.2 else t.lookup a := by
  obtain ⟨b, k⟩ := p
  by_cases hab : a = b
  · subst hab
    simp [List.lookup]
  · have hb : (a == b) = false := by simp [hab]
    simp [List.lookup, hb, hab]

theorem lookup_eq_some_mem {r : Ring} {a : String} {k : Key}
    (h : r.lookup a = some k) : (a, k) ∈ r := by
  induction r with
  | nil => simp [List.lookup] at h
  | cons p t ih =>
      rw [lookup_cons] at h
      split at h
      · next heq =>
          cases h
          have : p = (a, p.2) := by
            cases p
            simp_all
          rw [this]
          exact List.mem_cons_self _ _
      · exact List.mem_cons_of_mem _ (ih h)

theorem lookup_filter_ne (r : Ring) (a : String) :
    (r.filter (fun p => p.1 ≠ a)).lookup a = none := by
  induction r with
  | nil => rfl
  | cons p t ih =>
      rw [List.filter_cons]
      by_cases hp : p.1 = a
      · rw [if_neg (by simp [hp])]
        exact ih
      · rw [if_pos (by simp [hp]), lookup_cons, if_neg (mt Eq.symm hp)]
        exact ih

theorem lookup_safeAddKey_self (k : Key) (r : Ring) :
    (safeAddKey k r).lookup k.ID = some k := by
  simp [safeAddKey, lookup_cons]

/-- C3: while the locked flag is set, every lifecycle operation of the
StarkNet store (Get, GetAll, Create, Add, Delete, Import, Export,
EnsureKey) returns the Locked error and leaves the key-manager state —
in particular the key ring — exactly as it was. -/
theorem locked_gating (st : KMState) (h : st.locked = true)
    (id password : String) (key : Key) (gen dec : Except Err Key)
    (enc : Key → String → Except Err Bytes) :
    starknet.Get st id = (.error .locked, st) ∧
    starknet.GetAll st = (.error .locked, st) ∧
    starknet.Create gen st = (.error .locked, st) ∧
    starknet.Add st key = (.error .locked, st) ∧
    starknet.Delete st id = (.error .locked, st) ∧
    starknet.Import dec st = (.error .locked, st) ∧
    starknet.Export enc st id password = (.error .locked, st) ∧
    starknet.EnsureKey gen st = (.error .locked, st) := by
  simp [starknet.Get, starknet.GetAll, starknet.Create, starknet.Add,
    starknet.Delete, starknet.Import, starknet.Export, starknet.EnsureKey, h]

/-- Witness for C3 on a concrete locked store. -/
theorem locked_gating_witness :
    starknet.Get ⟨true, []⟩ "a" = (.error .locked, ⟨true, []⟩) ∧
    starknet.GetAll ⟨true, []⟩ = (.error .locked, ⟨true, []⟩) ∧
    starknet.Create (.ok ⟨"k", 1⟩) ⟨true, []⟩ = (.error .locked, ⟨true, []⟩) ∧
    starknet.Add ⟨true, []⟩ ⟨"k", 1⟩ = (.error .locked, ⟨true, []⟩) ∧
    starknet.Delete ⟨true, []⟩ "a" = (.error .locked, ⟨true, []⟩) ∧
    starknet.Import (.ok ⟨"k", 1⟩) ⟨true, []⟩ = (.error .locked, ⟨true, []⟩) ∧
    starknet.Export (fun _ _ => .ok []) ⟨true, []⟩ "a" "pw" =
      (.error .locked, ⟨true, []⟩) ∧
    starknet.EnsureKey (.ok ⟨"k", 1⟩) ⟨true, []⟩ = (.error .locked, ⟨true, []⟩) :=
  locked_gating ⟨true, []⟩ rfl "a" "pw" ⟨"k", 1⟩ (.ok ⟨"k", 1⟩) (.ok ⟨"k", 1⟩)
    (fun _ _ => .ok [])

/-- C10: the read operations Get, GetAll and Export return the
key-manager state — and hence the ring mapping — unchanged, for every
state and arguments, whether they succeed or fail. -/
theorem read_ops_frame (st : KMState) (id password : String)
    (enc : Key → String → Except Err Bytes) :
    (starknet.Get st id).2 = st ∧
    (starknet.GetAll st).2 = st ∧
    (starknet.Export enc st id password).2 = st := by
  refine ⟨?_, ?_, ?_⟩
  · rw [starknet.Get]
    split <;> rfl
  · rw [starknet.GetAll]
    split <;> rfl
  · rw [starknet.Export]
    split
    · rfl
    · split
      · rfl
      · split <;> rfl

/-- C4: on an unlocked store, adding a key whose identifier is already
present fails with AlreadyExists for that identifier and the state (in
particular the ring and its size) is unchanged; adding a key whose
identifier is absent succeeds and inserts it. -/
theorem add_spec (st : KMState) (key : Key) (h : st.locked = false) :
    ((st.ring.lookup key.ID).isSome →
      starknet.Add st key = (.error (.alreadyExists key.ID), st)) ∧
    (st.ring.lookup key.ID = none →
      (starknet.Add st key).1 = .ok () ∧
      (starknet.Add st key).2.ring.lookup key.ID = some key) := by
  constructor
  · intro hp
    rw [starknet.Add, if_neg (by simp [h]), if_pos hp]
  · intro hn
    have hAdd : starknet.Add st key =
        (.ok (), { st with ring := safeAddKey key st.ring }) := by
      rw [starknet.Add, if_neg (by simp [h]), if_neg (by simp [hn])]
    rw [hAdd]
    exact ⟨rfl, lookup_safeAddKey_self key st.ring⟩

/-- Witness for C4: duplicate insert fails, fresh insert succeeds, on a
concrete store. -/
theorem add_spec_witness :
    starknet.Add ⟨false, [("k", ⟨"k", 1⟩)]⟩ ⟨"k", 2⟩ =
      (.error (.alreadyExists "k"), ⟨false, [("k", ⟨"k", 1⟩)]⟩) ∧
    (starknet.Add ⟨false, []⟩ ⟨"k", 2⟩).1 = .ok () ∧
    (starknet.Add ⟨false, []⟩ ⟨"k", 2⟩).2.ring.lookup "k" = some ⟨"k", 2⟩ :=
  ⟨(add_spec ⟨false, [("k", ⟨"k", 1⟩)]⟩ ⟨"k", 2⟩ rfl).1 (by decide),
    (add_spec ⟨false, []⟩ ⟨"k", 2⟩ rfl).2 (by decide)⟩

/-- C5: on an unlocked store, EnsureKey is a no-op returning success
whenever the ring is non-empty; on an empty ring (with key generation
succeeding) it inserts exactly one key, and calling EnsureKey a second
time still leaves exactly one key in the ring. -/
theorem ensureKey_spec (gen gen2 : Except Err Key) (st : KMState)
    (h : st.locked = false) :
    (st.ring ≠ [] → starknet.EnsureKey gen st = (.ok (), st)) ∧
    (∀ k, gen = .ok k → st.ring = [] →
      (starknet.EnsureKey gen st).1 = .ok () ∧
      (starknet.EnsureKey gen st).2.ring.length = 1 ∧
      (starknet.EnsureKey gen2 (starknet.EnsureKey gen st).2).1 = .ok () ∧
      (starknet.EnsureKey gen2 (starknet.EnsureKey gen st).2).2.ring.length = 1) := by
  constructor
  · intro hne
    have hlen : st.ring.length > 0 := List.length_pos.mpr hne
    rw [starknet.EnsureKey.eq_def, if_neg (by simp [h]), if_pos hlen]
  · intro k hk hring
    subst hk
    have hlen : ¬ st.ring.length > 0 := by simp [hring]
    have h1 : starknet.EnsureKey (.ok k) st =
        (.ok (), { st with ring := safeAddKey k st.ring }) := by
      rw [starknet.EnsureKey.eq_def, if_neg (by simp [h]), if_neg hlen]
    have hring1 : (safeAddKey k st.ring).length = 1 := by
      rw [hring]
      rfl
    have h2 : starknet.EnsureKey gen2 { st with ring := safeAddKey k st.ring } =
        (.ok (), { st with ring := safeAddKey k st.ring }) := by
      rw [starknet.EnsureKey.eq_def, if_neg (by simp [h]), if_pos (by simp [hring1])]
    rw [h1, h2]
    exact ⟨rfl, hring1, rfl, hring1⟩

/-- Witness for C5 on a concrete empty unlocked store. -/
theorem ensureKey_spec_witness :
    (starknet.EnsureKey (.ok ⟨"k", 1⟩) ⟨false, []⟩).1 = .ok () ∧
    (starknet.EnsureKey (.ok ⟨"k", 1⟩) ⟨false, []⟩).2.ring.length = 1 ∧
    (starknet.EnsureKey (.ok ⟨"j", 2⟩)
      (starknet.EnsureKey (.ok ⟨"k", 1⟩) ⟨false, []⟩).2).1 = .ok () ∧
    (starknet.EnsureKey (.ok ⟨"j", 2⟩)
      (starknet.EnsureKey (.ok ⟨"k", 1⟩) ⟨false, []⟩).2).2.ring.length = 1 :=
  (ensureKey_spec (.ok ⟨"k", 1⟩) (.ok ⟨"j", 2⟩) ⟨false, []⟩ rfl).2 ⟨"k", 1⟩ rfl rfl

/-- C7: on an unlocked well-formed store, deleting an absent id fails
with NotFound for that id and leaves the state unchanged, so a
subsequent Get of the id still fails with NotFound; deleting a present
id returns the stored key and removes it from the ring. -/
theorem delete_spec (st : KMState) (id : String) (h : st.locked = false)
    (hwf : RingWF st.ring) :
    (st.ring.lookup id = none →
      starknet.Delete st id = (.error (.notFound id "StarkNet"), st) ∧
      (starknet.Get (starknet.Delete st id).2 id).1 =
        .error (.notFound id "StarkNet")) ∧
    (∀ k, st.ring.lookup id = some k →
      (starknet.Delete st id).1 = .ok k ∧
      (starknet.Delete st id).2.ring.lookup id = none) := by
  constructor
  · intro hn
    have hD : starknet.Delete st id = (.error (.notFound id "StarkNet"), st) := by
      rw [starknet.Delete, if_neg (by simp [h]), getByID, hn]
    have hG : (starknet.Get st id).1 = .error (.notFound id "StarkNet") := by
      rw [starknet.Get, if_neg (by simp [h]), getByID, hn]
    exact ⟨hD, by rw [hD]; exact hG⟩
  · intro k hk
    have hid : id = k.ID := hwf (id, k) (lookup_eq_some_mem hk)
    have hD : starknet.Delete st id =
        (.ok k, { st with ring := safeRemoveKey k st.ring }) := by
      rw [starknet.Delete, if_neg (by simp [h]), getByID, hk]
    refine ⟨by rw [hD], ?_⟩
    rw [hD]
    show (safeRemoveKey k st.ring).lookup id = none
    rw [safeRemoveKey, hid]
    exact lookup_filter_ne st.ring k.ID

/-- Witness for C7: absent id and present id on concrete stores. -/
theorem delete_spec_witness :
    (starknet.Delete ⟨false, []⟩ "a" = (.error (.notFound "a" "StarkNet"), ⟨false, []⟩) ∧
      (starknet.Get (starknet.Delete ⟨false, []⟩ "a").2 "a").1 =
        .error (.notFound "a" "StarkNet")) ∧
    ((starknet.Delete ⟨false, [("k", ⟨"k", 1⟩)]⟩ "k").1 = .ok ⟨"k", 1⟩ ∧
      (starknet.Delete ⟨false, [("k", ⟨"k", 1⟩)]⟩ "k").2.ring.lookup "k" = none) :=
  ⟨(delete_spec ⟨false, []⟩ "a" rfl (by simp [RingWF])).1 rfl,
    (delete_spec ⟨false, [("k", ⟨"k", 1⟩)]⟩ "k" rfl
      (by simp [RingWF, Key.ID])).2 ⟨"k", 1⟩ (by decide)⟩

/-- C8: on an unlocked store, Import fails with the wrapped decryption
error and leaves the state unchanged when the blob cannot be decrypted;
fails with AlreadyExists leaving the state unchanged when the recovered
key's identifier is already present; and otherwise inserts the
recovered key and returns it. -/
theorem import_spec (dec : Except Err Key) (st : KMState)
    (h : st.locked = false) :
    (∀ e, dec = .error e →
      starknet.Import dec st =
        (.error (.wrap "StarkNetKeyStore#ImportKey failed to decrypt key" e), st)) ∧
    (∀ k, dec = .ok k → (st.ring.lookup k.ID).isSome →
      starknet.Import dec st = (.error (.alreadyExists k.ID), st)) ∧
    (∀ k, dec = .ok k → st.ring.lookup k.ID = none →
      (starknet.Import dec st).1 = .ok k ∧
      (starknet.Import dec st).2.ring.lookup k.ID = some k) := by
  refine ⟨?_, ?_, ?_⟩
  · intro e he
    subst he
    rw [starknet.Import, if_neg (by simp [h])]
  · intro k hk hp
    subst hk
    rw [starknet.Import, if_neg (by simp [h])]
    show (if (st.ring.lookup k.ID).isSome then _ else _) = _
    rw [if_pos hp]
  · intro k hk hn
    subst hk
    have hI : starknet.Import (.ok k) st =
        (.ok k, { st with ring := safeAddKey k st.ring }) := by
      rw [starknet.Import, if_neg (by simp [h])]
      show (if (st.ring.lookup k.ID).isSome then _ else _) = _
      rw [if_neg (by simp [hn])]
    rw [hI]
    exact ⟨rfl, lookup_safeAddKey_self k st.ring⟩

/-- Witness for C8: failed decryption, identifier collision and
successful import on concrete stores. -/
theorem import_spec_witness :
    starknet.Import (.error (.other "bad password")) ⟨false, []⟩ =
      (.error (.wrap "StarkNetKeyStore#ImportKey failed to decrypt key"
        (.other "bad password")), ⟨false, []⟩) ∧
    starknet.Import (.ok ⟨"k", 2⟩) ⟨false, [("k", ⟨"k", 1⟩)]⟩ =
      (.error (.alreadyExists "k"), ⟨false, [("k", ⟨"k", 1⟩)]⟩) ∧
    (starknet.Import (.ok ⟨"k", 2⟩) ⟨false, []⟩).1 = .ok ⟨"k", 2⟩ ∧
    (starknet.Import (.ok ⟨"k", 2⟩) ⟨false, []⟩).2.ring.lookup "k" =
      some ⟨"k", 2⟩ :=
  ⟨(import_spec (.error (.other "bad password")) ⟨false, []⟩ rfl).1
      (.other "bad password") rfl,
    (import_spec (.ok ⟨"k", 2⟩) ⟨false, [("k", ⟨"k", 1⟩)]⟩ rfl).2.1
      ⟨"k", 2⟩ rfl (by decide),
    (import_spec (.ok ⟨"k", 2⟩) ⟨false, []⟩ rfl).2.2 ⟨"k", 2⟩ rfl (by decide)⟩

/-- C2 counterexample: the claim quantifies over every key store, but
on a locked store the nil-digest probe returns the Locked error — not
empty success for a present id, and not NotFound for an absent one. -/
theorem sign_probe_locked_cex :
    (StarknetLooppSigner.Sign (fun _ _ => .error (.other "curve"))
        ⟨true, [("k", ⟨"k", 7⟩)]⟩ "k" none).1 = .error .locked ∧
    (Except.error Err.locked : Except Err (Option Bytes)) ≠ .ok none ∧
    (StarknetLooppSigner.Sign (fun _ _ => .error (.other "curve"))
        ⟨true, []⟩ "a" none).1 = .error .locked ∧
    (Except.error Err.locked : Except Err (Option Bytes)) ≠
      .error (.notFound "a" "StarkNet") := by
  refine ⟨rfl, by simp, rfl, by simp⟩

/-- C2 (amended): on an unlocked store, the nil-digest probe returns
empty success when the id is present and NotFound when it is absent; on
a locked store it returns Locked; in no case is the curve signing
primitive invoked (the invocation list is empty). -/
theorem sign_existence_probe (curveSign : Nat → Nat → Except Err (Nat × Nat))
    (st : KMState) (id : String) :
    (st.locked = false → (st.ring.lookup id).isSome →
      StarknetLooppSigner.Sign curveSign st id none = (.ok none, [])) ∧
    (st.locked = false → st.ring.lookup id = none →
      StarknetLooppSigner.Sign curveSign st id none =
        (.error (.notFound id "StarkNet"), [])) ∧
    (st.locked = true →
      StarknetLooppSigner.Sign curveSign st id none = (.error .locked, [])) := by
  refine ⟨?_, ?_, ?_⟩
  · intro h hp
    obtain ⟨k, hk⟩ := Option.isSome_iff_exists.mp hp
    have hG : (starknet.Get st id).1 = .ok k := by
      rw [starknet.Get, if_neg (by simp [h]), getByID, hk]
    rw [StarknetLooppSigner.Sign, hG]
  · intro h hn
    have hG : (starknet.Get st id).1 = .error (.notFound id "StarkNet") := by
      rw [starknet.Get, if_neg (by simp [h]), getByID, hn]
    rw [StarknetLooppSigner.Sign, hG]
  · intro h
    have hG : (starknet.Get st id).1 = .error .locked := by
      rw [starknet.Get, if_pos h]
    rw [StarknetLooppSigner.Sign, hG]

/-- Witness for C2 (amended) on concrete stores: present id, absent id
and locked store. -/
theorem sign_existence_probe_witness :
    StarknetLooppSigner.Sign (fun _ _ => .error (.other "curve"))
        ⟨false, [("k", ⟨"k", 7⟩)]⟩ "k" none = (.ok none, []) ∧
    StarknetLooppSigner.Sign (fun _ _ => .error (.other "curve"))
        ⟨false, [("k", ⟨"k", 7⟩)]⟩ "a" none =
      (.error (.notFound "a" "StarkNet"), []) ∧
    StarknetLooppSigner.Sign (fun _ _ => .error (.other "curve"))
        ⟨true, []⟩ "a" none = (.error .locked, []) :=
  ⟨(sign_existence_probe _ _ _).1 rfl (by decide),
    (sign_existence_probe _ _ _).2.1 rfl (by decide),
    (sign_existence_probe _ _ _).2.2 rfl⟩

/-- C9: a non-nil zero-length digest is not treated as an existence
probe: for an id present in an unlocked store, Sign invokes the curve
signing primitive exactly once, with the digest interpreted as the
integer zero. -/
theorem sign_empty_digest_invokes_curve
    (curveSign : Nat → Nat → Except Err (Nat × Nat)) (st : KMState)
    (id : String) (k : Key) (h : st.locked = false)
    (hk : st.ring.lookup id = some k) :
    (StarknetLooppSigner.Sign curveSign st id (some [])).2 =
      [(0, k.ToPrivKey)] := by
  have hG : (starknet.Get st id).1 = .ok k := by
    rw [starknet.Get, if_neg (by simp [h]), getByID, hk]
  cases hc : curveSign 0 k.ToPrivKey with
  | error e =>
      simp [StarknetLooppSigner.Sign, hG, bytesToNat, hc]
  | ok xy =>
      obtain ⟨x, y⟩ := xy
      cases hS : SignatureFromBigInts x y with
      | error e =>
          simp [StarknetLooppSigner.Sign, hG, bytesToNat, hc, hS]
      | ok sig =>
          simp [StarknetLooppSigner.Sign, hG, bytesToNat, hc, hS]

/-- Witness for C9 on a concrete unlocked store containing the id. -/
theorem sign_empty_digest_invokes_curve_witness :
    (StarknetLooppSigner.Sign (fun _ _ => .ok (1, 2))
        ⟨false, [("k", ⟨"k", 7⟩)]⟩ "k" (some [])).2 =
      [(0, Key.ToPrivKey ⟨"k", 7⟩)] :=
  sign_empty_digest_invokes_curve (fun _ _ => .ok (1, 2))
    ⟨false, [("k", ⟨"k", 7⟩)]⟩ "k" ⟨"k", 7⟩ rfl (by decide)

/-- C6 counterexample: with a wrapped signer returning a raw signature
of the wrong length, the MalformedSignature produced by the decode step
reaches the caller wrapped with the Decode context — not unchanged as
the claim states. -/
theorem adapter_sign_malformed_wrapped_cex :
    keystoreAdapter.Sign (fun _ _ => .ok [0]) "addr" 1 =
      .error (.wrap "error creating starknet signature from raw signature"
        (.malformedSignature "invalid signature length")) ∧
    keystoreAdapter.Sign (fun _ _ => .ok [0]) "addr" 1 ≠
      .error (.malformedSignature "invalid signature length") := by
  have h1 : keystoreAdapter.Sign (fun _ _ => .ok [0]) "addr" 1 =
      .error (.wrap "error creating starknet signature from raw signature"
        (.malformedSignature "invalid signature length")) := rfl
  refine ⟨h1, ?_⟩
  rw [h1]
  simp

/-- C6 (amended): keystoreAdapter.Sign wraps an error of the wrapped
generic signer with the context "error computing loopp keystore
signature"; on success it returns the Decode result without further
wrapping, so a MalformedSignature arising in the decode step reaches
the caller wrapped once with the context "error creating starknet
signature from raw signature" (added by Decode itself), not
unchanged. -/
theorem adapter_sign_error_propagation
    (looppSign : String → Bytes → Except Err Bytes)
    (senderAddress : String) (hash : Nat) :
    (∀ e, looppSign senderAddress (natBytesMin hash) = .error e →
      keystoreAdapter.Sign looppSign senderAddress hash =
        .error (.wrap "error computing loopp keystore signature" e)) ∧
    (∀ raw, looppSign senderAddress (natBytesMin hash) = .ok raw →
      keystoreAdapter.Sign looppSign senderAddress hash =
        keystoreAdapter.Decode raw) ∧
    (∀ raw e, looppSign senderAddress (natBytesMin hash) = .ok raw →
      SignatureFromBytes raw = .error e →
      keystoreAdapter.Sign looppSign senderAddress hash =
        .error (.wrap "error creating starknet signature from raw signature" e)) := by
  refine ⟨?_, ?_, ?_⟩
  · intro e he
    rw [keystoreAdapter.Sign.eq_def, he]
  · intro raw hraw
    rw [keystoreAdapter.Sign.eq_def, hraw]
  · intro raw e hraw hS
    rw [keystoreAdapter.Sign.eq_def, hraw]
    show keystoreAdapter.Decode raw = _
    rw [keystoreAdapter.Decode, hS]

/-- Witness for C6 (amended): a failing signer and a wrong-length raw
signature, on concrete inputs. -/
theorem adapter_sign_error_propagation_witness :
    keystoreAdapter.Sign (fun _ _ => .error (.other "boom")) "a" 0 =
      .error (.wrap "error computing loopp keystore signature" (.other "boom")) ∧
    keystoreAdapter.Sign (fun _ _ => .ok [0]) "a" 0 =
      .error (.wrap "error creating starknet signature from raw signature"
        (.malformedSignature "invalid signature length")) :=
  ⟨(adapter_sign_error_propagation (fun _ _ => .error (.other "boom")) "a" 0).1
      (.other "boom") rfl,
    (adapter_sign_error_propagation (fun _ _ => .ok [0]) "a" 0).2.2
      [0] (.malformedSignature "invalid signature length") rfl rfl⟩

end StarknetKeystore
